import Mathlib

/-!
Verification of the OpenManus web-agent core against its specification:
the capability-refresh diff (`MCPAgent._refresh_tools`), the bounded
cancellable execution loop (`MCPAgent.run` together with the gate of
`MCPAgent.think`), the thinking-callback fan-out (`MCPAgent._notify_thinking`),
the termination-tool predicate (`MCPAgent._should_finish_execution`),
the per-client task bookkeeping and result delivery of `app/web_interface.py`,
and the chat-history store (`ChatHistory`).

Tool schema fingerprints (`inputSchema` values) are opaque comparable values;
they are represented by `Nat`.  A Python dict of tool name to schema is
represented by an association list `List (String × Nat)`; a Python set of
names by a deduplicated list of names.
-/

deriving instance DecidableEq for Except

/-- Modelled from the spec: agent lifecycle states.  `AgentState` is imported
from `app.schema`, which is not among the source files; the spec gives the
state set {Idle, Running, Finished, Cancelled, Errored}.  The code under
verification assigns only `running` (entering the loop) and `finished`. -/
inductive AgentState
  | idle
  | running
  | finished
  | cancelled
  | errored
deriving DecidableEq

/-- Keys of a tool snapshot, as Python's `set(tools.keys())`: the
deduplicated list of tool names. -/
def snapshotKeys (snapshot : List (String × Nat)) : List String :=
  (snapshot.map Prod.fst).dedup

/-- The diff computation of `MCPAgent._refresh_tools`
(src/app/agent/mcp.py lines 113-124):
`added_tools = current_names - previous_names`,
`removed_tools = previous_names - current_names`, and
`changed_tools = [n in current_names ∩ previous_names
                  if current_tools[n] != tool_schemas.get(n)]`. -/
def refreshDiff (previous current : List (String × Nat)) :
    List String × List String × List String :=
  ((snapshotKeys current).filter (fun n => decide (n ∉ snapshotKeys previous)),
   (snapshotKeys previous).filter (fun n => decide (n ∉ snapshotKeys current)),
   ((snapshotKeys current).filter (fun n => decide (n ∈ snapshotKeys previous))).filter
      (fun n => decide (List.lookup n current ≠ List.lookup n previous)))

/-- `MCPAgent._refresh_tools` (src/app/agent/mcp.py lines 100-145).
`session` is `None` (the guard at line 106, returning an empty diff and
leaving `tool_schemas` unchanged), or the outcome of
`session.list_tools()`: either the fetched tool snapshot, or an exception.
The body has no try/except, so a raising `list_tools` call is modelled by the
`Except.error` result propagating out of the function.  On success the fetched
snapshot replaces `tool_schemas` (line 127) and `(added, removed)` plus the
new snapshot are returned (the logging/memory messages carry no further
state relevant here). -/
def refreshTools (session : Option (Except String (List (String × Nat))))
    (toolSchemas : List (String × Nat)) :
    Except String ((List String × List String) × List (String × Nat)) :=
  match session with
  | none => Except.ok (([], []), toolSchemas)
  | some (Except.error e) => Except.error e
  | some (Except.ok currentTools) =>
    Except.ok (((refreshDiff toolSchemas currentTools).1,
                (refreshDiff toolSchemas currentTools).2.1), currentTools)

/-- Outcome of one invocation of the external step function
(`ToolCallAgent.step`, an external collaborator per the spec).  `finish` is
whether the step's tool handling set the state to FINISHED (the only state
assignment the external step performs on the code's paths); `output` is the
step-result string appended to `results`; `requestCancel` models a
`cancel_run()` call arriving while this step (the loop's only suspension
point) is in flight — `cancel_run` sets `_cancelled = True` and
`state = FINISHED` (src/app/agent/mcp.py lines 227-230). -/
structure Decision where
  finish : Bool
  output : String
  requestCancel : Bool
deriving DecidableEq

/-- The external world during one step: what `session.list_tools()` would
yield if this step's `think` refreshes tools, and what the external step
function does (`Except.error` models a raised exception). -/
structure StepSpec where
  serverTools : Except String (List (String × Nat))
  decision : Except String Decision
deriving DecidableEq

/-- Mutable loop state of `MCPAgent.run`: `current_step`, `self.state`,
`self._cancelled`, the tool snapshot (`tool_schemas`, kept in sync with
`mcp_clients.tool_map` — see `stepExec`), and the `results` list. -/
structure LoopState where
  currentStep : Nat
  state : AgentState
  cancelled : Bool
  toolMap : List (String × Nat)
  results : List String
deriving DecidableEq

/-- `_refresh_tools_interval = 5` (src/app/agent/mcp.py line 35). -/
def refreshToolsInterval : Nat := 5

/-- Modelled from the spec: the step-result string produced when the think
phase gates out action (tool set empty); the external step function's exact
string is outside the sources and outside the spec, so it is a fixed marker. -/
def gatedStepResult : String := "no_action"

/-- Effect of an external step decision on the loop state.  If a cancellation
request arrives during the step, `cancel_run` sets `_cancelled = True` and
`state = FINISHED` (observed by the loop right after the step). -/
def applyDecision (d : Decision) (s : LoopState) : LoopState :=
  if d.requestCancel then
    { s with state := AgentState.finished,
             results := s.results ++ [d.output], cancelled := true }
  else
    { s with state := if d.finish then AgentState.finished else s.state,
             results := s.results ++ [d.output] }

/-- One iteration body of the `while` loop in `MCPAgent.run`
(src/app/agent/mcp.py lines 262-285): `current_step += 1`, then
`await self.step()`, whose think phase (lines 147-162) first gates on an
empty tool map, then — when `current_step` is a multiple of the refresh
interval — refreshes the tools and gates again if the refreshed set is
empty, and otherwise delegates to the external step function.  A raised
exception propagates (there is no handler below `run`'s boundary).
Modelled from the spec where the sources end: `mcp_clients.tool_map`
(maintained by `MCPClients`, not among the sources) is identified with the
refreshed snapshot — the spec's CapabilitySync installs `current` as the new
snapshot and the emptiness check reads it.  The stuck-state hook (spec §4.2
step 5) is an external recovery heuristic that does not change the modelled
state. -/
def stepExec (w : Nat → StepSpec) (s : LoopState) : Except String LoopState :=
  if s.toolMap.isEmpty then
    Except.ok { s with currentStep := s.currentStep + 1, state := AgentState.finished,
                       results := s.results ++ [gatedStepResult] }
  else if (s.currentStep + 1) % refreshToolsInterval = 0 then
    match refreshTools (some ((w (s.currentStep + 1)).serverTools)) s.toolMap with
    | Except.error e => Except.error e
    | Except.ok (_, newTools) =>
      if newTools.isEmpty then
        Except.ok { s with currentStep := s.currentStep + 1, state := AgentState.finished,
                           toolMap := newTools, results := s.results ++ [gatedStepResult] }
      else
        match (w (s.currentStep + 1)).decision with
        | Except.error e => Except.error e
        | Except.ok d =>
          Except.ok (applyDecision d { s with currentStep := s.currentStep + 1,
                                              toolMap := newTools })
  else
    match (w (s.currentStep + 1)).decision with
    | Except.error e => Except.error e
    | Except.ok d => Except.ok (applyDecision d { s with currentStep := s.currentStep + 1 })

/-- The `while` condition of `MCPAgent.run` (lines 262-266):
`current_step < max_steps and state != FINISHED and not _cancelled`.
The two in-body `if self._cancelled: break` checks (lines 268, 283) test the
same flag this condition re-tests, so they are observationally subsumed. -/
def loopCond (maxSteps : Nat) (s : LoopState) : Bool :=
  decide (s.currentStep < maxSteps) && decide (s.state ≠ AgentState.finished) && !s.cancelled

/-- The loop of `MCPAgent.run`, with fuel.  Each iteration increments
`currentStep` by exactly one and the condition requires
`currentStep < maxSteps`, so fuel `maxSteps` (as the run uses) never runs out
while the condition still holds.  Returns the trace of states after each
executed step and the final state (or the propagating exception). -/
def runLoop (w : Nat → StepSpec) (maxSteps : Nat) :
    Nat → LoopState → List LoopState × Except String LoopState
  | 0, s => ([], Except.ok s)
  | fuel + 1, s =>
    if loopCond maxSteps s then
      match stepExec w s with
      | Except.error e => ([], Except.error e)
      | Except.ok s' =>
        ((s' :: (runLoop w maxSteps fuel s').1), (runLoop w maxSteps fuel s').2)
    else ([], Except.ok s)

/-- Loop state at the top of `MCPAgent.run`'s loop: `current_step = 0`
(line 260), state RUNNING (the `state_context(AgentState.RUNNING)` block),
`_cancelled` as possibly already set by a `cancel_run()` that arrived after
the reset at line 220 but before the first iteration. -/
def initState (preCancelled : Bool) (tools : List (String × Nat)) : LoopState :=
  { currentStep := 0, state := AgentState.running, cancelled := preCancelled,
    toolMap := tools, results := [] }

/-- Modelled from the spec: the final response of a completed run.  The code
prefers `memory.get_last_assistant_message()` (conversation memory is an
external collaborator outside the sources), then joins the step results,
then a fixed default (lines 294-303). -/
def responseOf (s : LoopState) : String :=
  if s.results.isEmpty then "完成，但没有生成响应。" else String.intercalate "\n" s.results

/-- How one call of `MCPAgent.run` ends: a normal completed response, the
cancellation return (line 288-289), or the caught-exception return of the
`except` block at lines 305-307.  In every case the Python function returns a
string normally — `runReturn` gives that string. -/
inductive RunOutcome
  | finished (response : String)
  | cancelled
  | errored (message : String)
deriving DecidableEq

/-- Result of one `MCPAgent.run` call: the outcome, the trace of loop states
after each executed step, and the final loop state (`none` when an exception
aborted the loop and control jumped to the `except` block). -/
structure RunResult where
  outcome : RunOutcome
  trace : List LoopState
  finalState : Option LoopState
deriving DecidableEq

/-- `MCPAgent.run` (src/app/agent/mcp.py lines 212-313) from the top of the
loop: run the loop, then return the cancellation message if `_cancelled`,
else the final response; any exception raised inside is caught by the
function-level `except` and turned into the `执行出错` return. -/
def runAgent (w : Nat → StepSpec) (maxSteps : Nat) (preCancelled : Bool)
    (tools : List (String × Nat)) : RunResult :=
  match runLoop w maxSteps maxSteps (initState preCancelled tools) with
  | (tr, Except.ok sF) =>
    if sF.cancelled then ⟨RunOutcome.cancelled, tr, some sF⟩
    else ⟨RunOutcome.finished (responseOf sF), tr, some sF⟩
  | (tr, Except.error e) => ⟨RunOutcome.errored ("执行出错: " ++ e), tr, none⟩

/-- The string `MCPAgent.run` returns to its awaiter for each outcome. -/
def runReturn : RunOutcome → String
  | RunOutcome.finished response => response
  | RunOutcome.cancelled => "任务已被用户终止"
  | RunOutcome.errored message => message

/-- Outbound websocket event kinds of `app/web_interface.py`. -/
inductive EventType
  | system
  | thinking
  | response
  | error
deriving DecidableEq

/-- Delivery of the awaited task's outcome in `process_agent_response`
(src/app/web_interface.py lines 165-195): a task that raises is reported as
an `error` event (lines 175-181); a task that returns is reported as a
`system` "terminated" event when the cancel flag is set, and otherwise as a
single `response` event carrying the returned string. -/
def deliverTaskResult (cancelFlag : Bool) (task : Except String String) :
    EventType × String :=
  match task with
  | Except.error e => (EventType.error, "执行出错: " ++ e)
  | Except.ok response =>
    if cancelFlag then (EventType.system, "任务已被终止")
    else (EventType.response, response)

/-- `MCPAgent._notify_thinking` (src/app/agent/mcp.py lines 92-98): the
`for` loop over `_thinking_callbacks` with a per-iteration try/except.  Each
callback receives the step text; its evaluation (`Except.error` = the
callback raised) is recorded in order in the first component, and each caught
failure contributes one log line to the second.  The function itself always
returns — no callback failure escapes the loop. -/
def notifyThinking (callbacks : List (String → Except String Unit)) (step : String) :
    List (Except String Unit) × List String :=
  match callbacks with
  | [] => ([], [])
  | cb :: rest =>
    match cb step with
    | Except.ok u =>
      (Except.ok u :: (notifyThinking rest step).1, (notifyThinking rest step).2)
    | Except.error e =>
      (Except.error e :: (notifyThinking rest step).1,
        ("Error in thinking callback: " ++ e) :: (notifyThinking rest step).2)

/-- `special_tool_names` default (src/app/agent/mcp.py line 38). -/
def defaultSpecialToolNames : List String := ["terminate"]

/-- Python's `str.lower()`: character-wise lowercasing of the string.
(`String.toLower` computes the same map but through a non-reducible
auxiliary; this form evaluates.) -/
def strLower (s : String) : String := ⟨s.data.map Char.toLower⟩

/-- `MCPAgent._should_finish_execution` (src/app/agent/mcp.py lines 199-202):
`return name.lower() == "terminate"` — the configured `special_tool_names`
list is not consulted. -/
def shouldFinishExecution (name : String) : Bool :=
  strLower name == "terminate"

/-- Modelled from the spec: termination-tool detection as the spec words it —
"name match against a configured *special tool* list, case-insensitive". -/
def specTerminationMatch (specialToolNames : List String) (name : String) : Bool :=
  specialToolNames.any (fun t => strLower t == strLower name)

/-- Python dict assignment `d[k] = v` on an association list: overwrite in
place when the key exists, else append. -/
def dictSet (table : List (String × Nat)) (key : String) (val : Nat) :
    List (String × Nat) :=
  match table with
  | [] => [(key, val)]
  | (k, v) :: rest =>
    if k = key then (k, val) :: rest else (k, v) :: dictSet rest key val

/-- Typed failures of the spec's `startRun`. -/
inductive StartError
  | alreadyRunning
deriving DecidableEq

/-- Starting a run in `process_agent_response` (src/app/web_interface.py
lines 160-163): `active_tasks[client_id] = task` — an unconditional dict
assignment with no precondition check, so it always succeeds, overwriting any
entry the client already holds.  Given the `Except` type of the spec's
`startRun` so the two can be compared. -/
def codeStartRun (activeTasks : List (String × Nat)) (clientId : String)
    (taskId : Nat) : Except StartError (List (String × Nat)) :=
  Except.ok (dictSet activeTasks clientId taskId)

/-- Modelled from the spec: `startRun` "fails with `AlreadyRunning` if the
session already holds an executionHandle (enforces single-flight per
session)"; on success it installs the execution handle. -/
def specStartRun (activeTasks : List (String × Nat)) (clientId : String)
    (taskId : Nat) : Except StartError (List (String × Nat)) :=
  if clientId ∈ activeTasks.map Prod.fst then Except.error StartError.alreadyRunning
  else Except.ok (dictSet activeTasks clientId taskId)

/-- One chat message as `websocket_endpoint` records it
(src/app/web_interface.py lines 264-281): role, content, the thinking steps
(empty for user messages) and a timestamp. -/
structure ChatMessage where
  role : String
  content : String
  thinking : List String
  timestamp : String
deriving DecidableEq

/-- One history record as `ChatHistory.save_conversation` writes it
(src/app/web_interface.py lines 54-59): generated id, timestamp, originating
client id, and the ordered message list. -/
structure HistoryRecord where
  id : String
  timestamp : String
  clientId : String
  messages : List ChatMessage
deriving DecidableEq

/-- `ChatHistory.save_conversation` (src/app/web_interface.py lines 47-66):
writes one new record file holding the generated id and the messages, and
returns the id.  The store is the list of records on disk; the generated
`uuid4` id is a parameter (its freshness is a hypothesis of the round-trip
theorem). -/
def saveConversation (store : List HistoryRecord) (historyId timestamp clientId : String)
    (messages : List ChatMessage) : List HistoryRecord × String :=
  (store ++ [⟨historyId, timestamp, clientId, messages⟩], historyId)

/-- `ChatHistory.get_conversation` (src/app/web_interface.py lines 89-101):
scan the stored record files and return the first whose `id` field matches,
`None` when no record matches. -/
def getConversation (store : List HistoryRecord) (historyId : String) :
    Option HistoryRecord :=
  store.find? (fun r => r.id == historyId)

/-- A world whose capability fetches succeed and whose external step function
neither raises nor observes a cancellation request. -/
def Benign (w : Nat → StepSpec) : Prop :=
  ∀ n, (∃ ts, (w n).serverTools = Except.ok ts) ∧
    ∃ d, (w n).decision = Except.ok d ∧ d.requestCancel = false

/-- Steady world: every step fetch returns the one-tool snapshot and every
external step returns a non-terminal result. -/
def wSteady : Nat → StepSpec :=
  fun _ => ⟨Except.ok [("t", 0)], Except.ok ⟨false, "out", false⟩⟩

/-- World in which a cancellation request arrives while step 2 is in flight. -/
def wCancelAt2 : Nat → StepSpec :=
  fun n =>
    if n = 2 then ⟨Except.ok [("t", 0)], Except.ok ⟨false, "out", true⟩⟩
    else ⟨Except.ok [("t", 0)], Except.ok ⟨false, "out", false⟩⟩

/-- World in which the capability server reports zero tools from step 5 on. -/
def wShutAt5 : Nat → StepSpec :=
  fun n =>
    if n < 5 then ⟨Except.ok [("t", 0)], Except.ok ⟨false, "out", false⟩⟩
    else ⟨Except.ok [], Except.ok ⟨false, "out", false⟩⟩

/-- World whose external step function raises "boom" at step 1. -/
def wFailBoom : Nat → StepSpec :=
  fun _ => ⟨Except.ok [("t", 0)], Except.error "boom"⟩

/-- World whose external step function raises "crash" at step 1. -/
def wFailCrash : Nat → StepSpec :=
  fun _ => ⟨Except.ok [("t", 0)], Except.error "crash"⟩

/-- World whose capability fetch raises at every refresh. -/
def wRefreshFail : Nat → StepSpec :=
  fun _ => ⟨Except.error "ProtocolError", Except.ok ⟨false, "out", false⟩⟩

/-! ### Shared lemmas about the loop embedding -/

theorem beq_comm_str (a b : String) : (a == b) = (b == a) := by
  by_cases h : a = b
  · rw [h]
  · have h1 : (a == b) = false := beq_eq_false_iff_ne.mpr h
    have h2 : (b == a) = false := beq_eq_false_iff_ne.mpr (Ne.symm h)
    rw [h1, h2]

theorem applyDecision_currentStep (d : Decision) (s : LoopState) :
    (applyDecision d s).currentStep = s.currentStep := by
  unfold applyDecision
  split <;> rfl

theorem applyDecision_cancelled (d : Decision) (s : LoopState) :
    (applyDecision d s).cancelled = (d.requestCancel || s.cancelled) := by
  unfold applyDecision
  cases h : d.requestCancel <;> simp [h]

theorem applyDecision_state (d : Decision) (s : LoopState) :
    (applyDecision d s).state = AgentState.finished ∨ (applyDecision d s).state = s.state := by
  unfold applyDecision
  cases h : d.requestCancel
  · cases hf : d.finish <;> simp [h, hf]
  · simp [h]

theorem stepExec_ok_currentStep {w : Nat → StepSpec} {s s' : LoopState}
    (h : stepExec w s = Except.ok s') : s'.currentStep = s.currentStep + 1 := by
  unfold stepExec at h
  split at h
  · injection h with h2
    subst h2
    rfl
  · split at h
    · split at h
      · exact Except.noConfusion h
      · split at h
        · injection h with h2
          subst h2
          rfl
        · split at h
          · exact Except.noConfusion h
          · injection h with h2
            subst h2
            rw [applyDecision_currentStep]
    · split at h
      · exact Except.noConfusion h
      · injection h with h2
        subst h2
        rw [applyDecision_currentStep]

theorem stepExec_ok_state {w : Nat → StepSpec} {s s' : LoopState}
    (h : stepExec w s = Except.ok s') :
    s'.state = AgentState.finished ∨ s'.state = s.state := by
  unfold stepExec at h
  split at h
  · injection h with h2
    subst h2
    exact Or.inl rfl
  · split at h
    · split at h
      · exact Except.noConfusion h
      · split at h
        · injection h with h2
          subst h2
          exact Or.inl rfl
        · split at h
          · exact Except.noConfusion h
          · injection h with h2
            subst h2
            exact applyDecision_state _ _
    · split at h
      · exact Except.noConfusion h
      · injection h with h2
        subst h2
        exact applyDecision_state _ _

theorem loopCond_true {m : Nat} {s : LoopState} (h : loopCond m s = true) :
    s.currentStep < m ∧ s.state ≠ AgentState.finished ∧ s.cancelled = false := by
  simp only [loopCond, Bool.and_eq_true, decide_eq_true_eq, Bool.not_eq_true'] at h
  tauto

theorem loopCond_cancelled {m : Nat} {s : LoopState} (h : s.cancelled = true) :
    loopCond m s = false := by
  simp [loopCond, h]

theorem loopCond_finished {m : Nat} {s : LoopState} (h : s.state = AgentState.finished) :
    loopCond m s = false := by
  simp [loopCond, h]

theorem runLoop_stop {m : Nat} {s : LoopState} (w : Nat → StepSpec)
    (h : loopCond m s = false) : ∀ fuel, runLoop w m fuel s = ([], Except.ok s) := by
  intro fuel
  cases fuel with
  | zero => rfl
  | succ fuel => simp [runLoop, h]

theorem runAgent_trace (w : Nat → StepSpec) (m : Nat) (preCancelled : Bool)
    (tools : List (String × Nat)) :
    (runAgent w m preCancelled tools).trace =
      (runLoop w m m (initState preCancelled tools)).1 := by
  unfold runAgent
  rcases h : runLoop w m m (initState preCancelled tools) with ⟨tr, r⟩
  cases r with
  | ok sF =>
    by_cases hc : sF.cancelled = true
    · simp [hc]
    · simp [hc]
  | error e => rfl

theorem runAgent_outcome_cancelled {w : Nat → StepSpec} {m : Nat} {preCancelled : Bool}
    {tools : List (String × Nat)} {sF : LoopState}
    (h : (runLoop w m m (initState preCancelled tools)).2 = Except.ok sF)
    (hc : sF.cancelled = true) :
    (runAgent w m preCancelled tools).outcome = RunOutcome.cancelled := by
  unfold runAgent
  rcases hp : runLoop w m m (initState preCancelled tools) with ⟨tr, r⟩
  rw [hp] at h
  change r = Except.ok sF at h
  subst h
  simp [hc]

theorem runAgent_outcome_finished {w : Nat → StepSpec} {m : Nat} {preCancelled : Bool}
    {tools : List (String × Nat)} {sF : LoopState}
    (h : (runLoop w m m (initState preCancelled tools)).2 = Except.ok sF)
    (hc : sF.cancelled = false) :
    (runAgent w m preCancelled tools).outcome = RunOutcome.finished (responseOf sF) := by
  unfold runAgent
  rcases hp : runLoop w m m (initState preCancelled tools) with ⟨tr, r⟩
  rw [hp] at h
  change r = Except.ok sF at h
  subst h
  simp [hc]

theorem runLoop_trace_le {w : Nat → StepSpec} {m : Nat} :
    ∀ (fuel : Nat) (s : LoopState), s.currentStep ≤ m →
      ∀ t ∈ (runLoop w m fuel s).1, t.currentStep ≤ m := by
  intro fuel
  induction fuel with
  | zero =>
    intro s hs t ht
    simp [runLoop] at ht
  | succ fuel ih =>
    intro s hs t ht
    by_cases hl : loopCond m s = true
    · unfold runLoop at ht
      rw [if_pos hl] at ht
      cases hse : stepExec w s with
      | error e =>
        rw [hse] at ht
        simp at ht
      | ok s' =>
        rw [hse] at ht
        simp only [List.mem_cons] at ht
        have hstep : s'.currentStep = s.currentStep + 1 := stepExec_ok_currentStep hse
        have hlt : s.currentStep < m := (loopCond_true hl).1
        rcases ht with rfl | ht
        · omega
        · exact ih s' (by omega) t ht
    · have hl' : loopCond m s = false := by simpa using hl
      rw [runLoop_stop w hl'] at ht
      simp at ht

theorem runLoop_trace_state {w : Nat → StepSpec} {m : Nat} :
    ∀ (fuel : Nat) (s : LoopState),
      (s.state = AgentState.running ∨ s.state = AgentState.finished) →
      ∀ t ∈ (runLoop w m fuel s).1,
        t.state = AgentState.running ∨ t.state = AgentState.finished := by
  intro fuel
  induction fuel with
  | zero =>
    intro s hs t ht
    simp [runLoop] at ht
  | succ fuel ih =>
    intro s hs t ht
    by_cases hl : loopCond m s = true
    · unfold runLoop at ht
      rw [if_pos hl] at ht
      cases hse : stepExec w s with
      | error e =>
        rw [hse] at ht
        simp at ht
      | ok s' =>
        rw [hse] at ht
        simp only [List.mem_cons] at ht
        have hstate : s'.state = AgentState.running ∨ s'.state = AgentState.finished := by
          rcases stepExec_ok_state hse with h1 | h1
          · exact Or.inr h1
          · rw [h1]
            exact hs
        rcases ht with rfl | ht
        · exact hstate
        · exact ih s' hstate t ht
    · have hl' : loopCond m s = false := by simpa using hl
      rw [runLoop_stop w hl'] at ht
      simp at ht

theorem stepExec_benign {w : Nat → StepSpec} {s : LoopState}
    (hb : Benign w) (hc : s.cancelled = false) :
    ∃ s', stepExec w s = Except.ok s' ∧ s'.cancelled = false := by
  obtain ⟨⟨ts, hts⟩, d, hd, hrc⟩ := hb (s.currentStep + 1)
  unfold stepExec
  by_cases h1 : s.toolMap.isEmpty = true
  · rw [if_pos h1]
    exact ⟨_, rfl, hc⟩
  · rw [if_neg h1]
    by_cases h2 : (s.currentStep + 1) % refreshToolsInterval = 0
    · rw [if_pos h2, hts]
      show ∃ s', (if ts.isEmpty then _ else _) = Except.ok s' ∧ _
      by_cases h3 : ts.isEmpty = true
      · rw [if_pos h3]
        exact ⟨_, rfl, hc⟩
      · rw [if_neg h3, hd]
        refine ⟨_, rfl, ?_⟩
        rw [applyDecision_cancelled, hrc]
        simpa using hc
    · rw [if_neg h2, hd]
      refine ⟨_, rfl, ?_⟩
      rw [applyDecision_cancelled, hrc]
      simpa using hc

theorem runLoop_benign {w : Nat → StepSpec} {m : Nat} (hb : Benign w) :
    ∀ (fuel : Nat) (s : LoopState), s.cancelled = false →
      ∃ sF, (runLoop w m fuel s).2 = Except.ok sF ∧ sF.cancelled = false := by
  intro fuel
  induction fuel with
  | zero =>
    intro s hc
    exact ⟨s, rfl, hc⟩
  | succ fuel ih =>
    intro s hc
    by_cases hl : loopCond m s = true
    · obtain ⟨s', hs', hc'⟩ := stepExec_benign hb hc
      unfold runLoop
      rw [if_pos hl, hs']
      exact ih s' hc'
    · have hl' : loopCond m s = false := by simpa using hl
      rw [runLoop_stop w hl']
      exact ⟨s, rfl, hc⟩

theorem runLoop_cancel_stops {w : Nat → StepSpec} {m : Nat} :
    ∀ (fuel : Nat) (s : LoopState) (i : Nat),
      i < (runLoop w m fuel s).1.length →
      ((runLoop w m fuel s).1.getD i (initState false [])).cancelled = true →
      (runLoop w m fuel s).1.length = i + 1 ∧
      (runLoop w m fuel s).2 =
        Except.ok ((runLoop w m fuel s).1.getD i (initState false [])) := by
  intro fuel
  induction fuel with
  | zero =>
    intro s i hi _
    simp [runLoop] at hi
  | succ fuel ih =>
    intro s i hi hc
    by_cases hl : loopCond m s = true
    · cases hse : stepExec w s with
      | error e =>
        have hnil : (runLoop w m (fuel + 1) s).1 = [] := by
          unfold runLoop
          rw [if_pos hl, hse]
        rw [hnil] at hi
        simp at hi
      | ok s' =>
        have hrl : runLoop w m (fuel + 1) s =
            (s' :: (runLoop w m fuel s').1, (runLoop w m fuel s').2) := by
          conv_lhs => unfold runLoop
          rw [if_pos hl, hse]
        rw [hrl] at hi hc ⊢
        cases i with
        | zero =>
          simp only [List.getD_cons_zero] at hc ⊢
          rw [runLoop_stop w (loopCond_cancelled hc) fuel]
          simp
        | succ i =>
          simp only [List.getD_cons_succ] at hc ⊢
          simp only [List.length_cons] at hi ⊢
          have hi' : i < (runLoop w m fuel s').1.length := by omega
          obtain ⟨h1, h2⟩ := ih s' i hi' hc
          exact ⟨by omega, h2⟩
    · have hl' : loopCond m s = false := by simpa using hl
      rw [runLoop_stop w hl'] at hi
      simp at hi

theorem lookup_dictSet :
    ∀ (table : List (String × Nat)) (key : String) (val : Nat),
      List.lookup key (dictSet table key val) = some val := by
  intro table key val
  induction table with
  | nil => simp [dictSet, List.lookup]
  | cons p rest ih =>
    obtain ⟨pk, pv⟩ := p
    by_cases h : pk = key
    · subst h
      simp [dictSet, List.lookup]
    · have hne : (key == pk) = false := beq_eq_false_iff_ne.mpr (fun hh => h hh.symm)
      simp only [dictSet, if_neg h, List.lookup, hne]
      exact ih

theorem find_append_fresh :
    ∀ (store : List HistoryRecord) (rec : HistoryRecord),
      (∀ r ∈ store, r.id ≠ rec.id) →
      (store ++ [rec]).find? (fun r => r.id == rec.id) = some rec := by
  intro store rec h
  induction store with
  | nil => simp [List.find?]
  | cons r rest ih =>
    have hr : r.id ≠ rec.id := h r (List.mem_cons_self r rest)
    have hb : (r.id == rec.id) = false := beq_eq_false_iff_ne.mpr hr
    simp only [List.cons_append, List.find?, hb]
    exact ih (fun x hx => h x (List.mem_cons_of_mem r hx))

/-! ### The claims -/

/-- C1: For every pair of snapshots `previous` and `current`, the refresh diff
has `added = current.keys − previous.keys`, `removed = previous.keys − current.keys`,
and `changed` is exactly the keys present in both snapshots whose fingerprints
differ; no key appears in more than one of the three sets.  In particular, a
capability list going from {a, b} to {b, c} yields added = {c}, removed = {a},
changed = ∅. -/
theorem c1_refresh_diff_sets :
    (∀ (previous current : List (String × Nat)) (n : String),
      (n ∈ (refreshDiff previous current).1 ↔
        n ∈ snapshotKeys current ∧ n ∉ snapshotKeys previous) ∧
      (n ∈ (refreshDiff previous current).2.1 ↔
        n ∈ snapshotKeys previous ∧ n ∉ snapshotKeys current) ∧
      (n ∈ (refreshDiff previous current).2.2 ↔
        (n ∈ snapshotKeys current ∧ n ∈ snapshotKeys previous) ∧
          List.lookup n current ≠ List.lookup n previous) ∧
      ¬(n ∈ (refreshDiff previous current).1 ∧ n ∈ (refreshDiff previous current).2.1) ∧
      ¬(n ∈ (refreshDiff previous current).1 ∧ n ∈ (refreshDiff previous current).2.2) ∧
      ¬(n ∈ (refreshDiff previous current).2.1 ∧ n ∈ (refreshDiff previous current).2.2)) ∧
    refreshDiff [("a", 0), ("b", 1)] [("b", 1), ("c", 2)] = (["c"], ["a"], []) := by
  constructor
  · intro previous current n
    simp only [refreshDiff, List.mem_filter, decide_eq_true_eq]
    tauto
  · decide

/-- Witness for C1: in the {a, b} → {b, c} scenario, "c" is reported added. -/
theorem c1_refresh_diff_sets_witness :
    "c" ∈ (refreshDiff [("a", 0), ("b", 1)] [("b", 1), ("c", 2)]).1 :=
  ((c1_refresh_diff_sets.1 [("a", 0), ("b", 1)] [("b", 1), ("c", 2)] "c").1).mpr
    ⟨by decide, by decide⟩

/-- C2: While a run is in progress, `stepCount` never exceeds `maxSteps`
(every state of the loop's trace has `currentStep ≤ maxSteps`); exhausting
the step budget ends the run as a normal Finished outcome, not an error
(under a non-failing, non-cancelling external world every run ends in a
`finished` outcome); and with `maxSteps = 3` and an external step function
that always returns a non-terminal result, the loop performs exactly 3 steps
and then finishes. -/
theorem c2_step_budget :
    (∀ (w : Nat → StepSpec) (m : Nat) (preCancelled : Bool)
        (tools : List (String × Nat)),
      ∀ t ∈ (runAgent w m preCancelled tools).trace, t.currentStep ≤ m) ∧
    (∀ (w : Nat → StepSpec) (m : Nat) (tools : List (String × Nat)), Benign w →
      ∃ msg, (runAgent w m false tools).outcome = RunOutcome.finished msg) ∧
    ((runAgent wSteady 3 false [("t", 0)]).trace.length = 3 ∧
     (runAgent wSteady 3 false [("t", 0)]).outcome =
        RunOutcome.finished "out\nout\nout") := by
  refine ⟨?_, ?_, by decide, by decide⟩
  · intro w m preCancelled tools t ht
    rw [runAgent_trace] at ht
    exact runLoop_trace_le m (initState preCancelled tools) (Nat.zero_le m) t ht
  · intro w m tools hb
    obtain ⟨sF, h1, h2⟩ := runLoop_benign hb m (initState false tools) rfl
    exact ⟨responseOf sF, runAgent_outcome_finished h1 h2⟩

/-- Witness for C2: the budget-exhaustion conjunct at a concrete benign
world with `maxSteps = 5`. -/
theorem c2_step_budget_witness :
    ∃ msg, (runAgent wSteady 5 false [("t", 0)]).outcome = RunOutcome.finished msg :=
  c2_step_budget.2.1 wSteady 5 [("t", 0)]
    (fun _ => ⟨⟨[("t", 0)], rfl⟩, ⟨⟨false, "out", false⟩, rfl, rfl⟩⟩)

/-- C3: If cancellation is requested before any step has executed, the loop
transitions directly to Cancelled with `stepCount = 0` and executes no step;
and once any trace state observes the cancellation flag (set during the step
in whose flight the request arrived), that state is the last — the loop
performs no further step and the run's outcome is Cancelled. -/
theorem c3_cancellation :
    (∀ (w : Nat → StepSpec) (m : Nat) (tools : List (String × Nat)),
      runAgent w m true tools =
        ⟨RunOutcome.cancelled, [], some (initState true tools)⟩ ∧
      (initState true tools).currentStep = 0) ∧
    (∀ (w : Nat → StepSpec) (m : Nat) (preCancelled : Bool)
        (tools : List (String × Nat)) (i : Nat),
      i < (runAgent w m preCancelled tools).trace.length →
      ((runAgent w m preCancelled tools).trace.getD i (initState false [])).cancelled =
        true →
      (runAgent w m preCancelled tools).trace.length = i + 1 ∧
      (runAgent w m preCancelled tools).outcome = RunOutcome.cancelled) := by
  constructor
  · intro w m tools
    constructor
    · unfold runAgent
      rw [runLoop_stop w (loopCond_cancelled rfl) m]
      rfl
    · rfl
  · intro w m preCancelled tools i hi hc
    rw [runAgent_trace] at hi hc
    obtain ⟨h1, h2⟩ := runLoop_cancel_stops m (initState preCancelled tools) i hi hc
    refine ⟨by rw [runAgent_trace]; exact h1, ?_⟩
    exact runAgent_outcome_cancelled h2 hc

/-- Witness for C3: with a cancellation request arriving during step 2, the
run stops right after that step with a Cancelled outcome. -/
theorem c3_cancellation_witness :
    (runAgent wCancelAt2 5 false [("t", 0)]).trace.length = 1 + 1 ∧
    (runAgent wCancelAt2 5 false [("t", 0)]).outcome = RunOutcome.cancelled :=
  c3_cancellation.2 wCancelAt2 5 false [("t", 0)] 1 (by decide) (by decide)

/-- C4: If a capability refresh returns an empty tool set, the owning session
transitions to Finished within that very refresh cycle — the refreshing step
installs the empty snapshot, sets the state to Finished and never reaches the
external step function — and a Finished state stops the loop, so no further
step of the run executes.  Concretely, with the server reporting zero tools
from step 5 on, the run performs exactly the 4 ordinary steps plus the
refresh-gated step 5 and ends Finished. -/
theorem c4_empty_refresh_finishes :
    (∀ (w : Nat → StepSpec) (s : LoopState),
      s.toolMap.isEmpty = false →
      (s.currentStep + 1) % refreshToolsInterval = 0 →
      (w (s.currentStep + 1)).serverTools = Except.ok [] →
      stepExec w s = Except.ok ⟨s.currentStep + 1, AgentState.finished, s.cancelled,
        [], s.results ++ [gatedStepResult]⟩) ∧
    (∀ (w : Nat → StepSpec) (m fuel : Nat) (s : LoopState),
      s.state = AgentState.finished →
      runLoop w m fuel s = ([], Except.ok s)) ∧
    ((runAgent wShutAt5 20 false [("t", 0)]).trace.length = 5 ∧
     ((runAgent wShutAt5 20 false [("t", 0)]).trace.getD 4 (initState false [])).state =
        AgentState.finished ∧
     (runAgent wShutAt5 20 false [("t", 0)]).outcome =
        RunOutcome.finished "out\nout\nout\nout\nno_action") := by
  refine ⟨?_, ?_, by decide, by decide, by decide⟩
  · intro w s h1 h2 h3
    unfold stepExec
    rw [if_neg (by simp [h1]), if_pos h2, h3]
    rfl
  · intro w m fuel s h
    exact runLoop_stop w (loopCond_finished h) fuel

/-- Witness for C4: the empty-refresh step at `currentStep = 4` finishes the
session, and the loop started from the resulting Finished state executes no
step. -/
theorem c4_empty_refresh_finishes_witness :
    stepExec wShutAt5 ⟨4, AgentState.running, false, [("t", 0)], []⟩ =
      Except.ok ⟨5, AgentState.finished, false, [], [gatedStepResult]⟩ ∧
    runLoop wShutAt5 20 16 ⟨5, AgentState.finished, false, [], [gatedStepResult]⟩ =
      ([], Except.ok ⟨5, AgentState.finished, false, [], [gatedStepResult]⟩) :=
  ⟨c4_empty_refresh_finishes.1 wShutAt5 ⟨4, AgentState.running, false, [("t", 0)], []⟩
      (by decide) (by decide) (by decide),
   c4_empty_refresh_finishes.2.1 wShutAt5 20 16
      ⟨5, AgentState.finished, false, [], [gatedStepResult]⟩ rfl⟩

/-- C5 (corrected): the code performs no AlreadyRunning check at all.
Starting a run unconditionally installs the task handle —
`active_tasks[client_id] = task` — succeeding and overwriting even when the
client already holds an in-flight entry; so whenever the session already
holds a handle, the code's behavior differs from the spec's `startRun`,
which rejects with AlreadyRunning. -/
theorem c5_no_single_flight_enforcement :
    (∀ (table : List (String × Nat)) (clientId : String) (taskId : Nat),
      codeStartRun table clientId taskId = Except.ok (dictSet table clientId taskId)) ∧
    (∀ (table : List (String × Nat)) (clientId : String) (taskId : Nat),
      List.lookup clientId (dictSet table clientId taskId) = some taskId) ∧
    (∀ (table : List (String × Nat)) (clientId : String) (taskId : Nat),
      clientId ∈ table.map Prod.fst →
      specStartRun table clientId taskId = Except.error StartError.alreadyRunning ∧
      codeStartRun table clientId taskId ≠ specStartRun table clientId taskId) := by
  refine ⟨fun table clientId taskId => rfl, lookup_dictSet, ?_⟩
  intro table clientId taskId h
  have h1 : specStartRun table clientId taskId = Except.error StartError.alreadyRunning := by
    unfold specStartRun
    rw [if_pos h]
  refine ⟨h1, ?_⟩
  intro heq
  rw [h1] at heq
  exact Except.noConfusion heq

/-- Witness for C5: with client "c" already holding task 0, the spec rejects
a second start while the code does something different. -/
theorem c5_no_single_flight_enforcement_witness :
    specStartRun [("c", 0)] "c" 1 = Except.error StartError.alreadyRunning ∧
    codeStartRun [("c", 0)] "c" 1 ≠ specStartRun [("c", 0)] "c" 1 :=
  c5_no_single_flight_enforcement.2.2 [("c", 0)] "c" 1 (by decide)

/-- Counterexample for C5 as stated: with client "c" already holding a task,
starting another run through the code path succeeds (overwriting the handle)
instead of failing with AlreadyRunning. -/
theorem c5_counterexample :
    codeStartRun [("c", 0)] "c" 1 = Except.ok [("c", 1)] ∧
    specStartRun [("c", 0)] "c" 1 = Except.error StartError.alreadyRunning := by
  constructor
  · rfl
  · decide

/-- C6 (corrected): only the no-session case of `_refresh_tools` returns an
empty diff and leaves the snapshot unchanged; a failing tool-list fetch is
not caught inside refresh — the exception propagates out of the refresh and
aborts the step (it is caught only at the run boundary). -/
theorem c6_refresh_failure_propagates :
    (∀ previous : List (String × Nat),
      refreshTools none previous = Except.ok (([], []), previous)) ∧
    (∀ (previous : List (String × Nat)) (e : String),
      refreshTools (some (Except.error e)) previous = Except.error e) ∧
    (∀ (w : Nat → StepSpec) (s : LoopState) (e : String),
      s.toolMap.isEmpty = false →
      (s.currentStep + 1) % refreshToolsInterval = 0 →
      (w (s.currentStep + 1)).serverTools = Except.error e →
      stepExec w s = Except.error e) := by
  refine ⟨fun previous => rfl, fun previous e => rfl, ?_⟩
  intro w s e h1 h2 h3
  unfold stepExec
  rw [if_neg (by simp [h1]), if_pos h2, h3]
  rfl

/-- Witness for C6: a concrete refreshing step whose fetch raises aborts with
that exception. -/
theorem c6_refresh_failure_propagates_witness :
    stepExec wRefreshFail ⟨4, AgentState.running, false, [("t", 0)], []⟩ =
      Except.error "ProtocolError" :=
  c6_refresh_failure_propagates.2.2 wRefreshFail
    ⟨4, AgentState.running, false, [("t", 0)], []⟩ "ProtocolError"
    (by decide) (by decide) rfl

/-- Counterexample for C6 as stated: a failing fetch makes refresh return the
propagating exception, not the unchanged snapshot with an empty diff. -/
theorem c6_counterexample :
    refreshTools (some (Except.error "ProtocolError")) [("a", 0)] =
      Except.error "ProtocolError" ∧
    (Except.error "ProtocolError" :
        Except String ((List String × List String) × List (String × Nat))) ≠
      Except.ok (([], []), [("a", 0)]) := by
  constructor
  · rfl
  · intro h
    exact Except.noConfusion h

/-- C7 (corrected): `_should_finish_execution` ignores the configured
`special_tool_names` list and finishes exactly when the tool's lowercased
name is "terminate"; this coincides with the spec's case-insensitive list
match only for the default configuration `["terminate"]`. -/
theorem c7_terminate_only :
    ∀ name : String,
      shouldFinishExecution name = specTerminationMatch defaultSpecialToolNames name := by
  intro name
  unfold shouldFinishExecution specTerminationMatch defaultSpecialToolNames
  simp only [List.any_cons, List.any_nil, Bool.or_false]
  have ht : strLower "terminate" = "terminate" := by decide
  rw [ht]
  exact beq_comm_str (strLower name) "terminate"

/-- Counterexample for C7 as stated: with the special tool list configured as
["finish"], the tool name "finish" matches the list case-insensitively, yet
the code's finish predicate rejects it. -/
theorem c7_counterexample :
    specTerminationMatch ["finish"] "finish" = true ∧
    shouldFinishExecution "finish" = false := by
  constructor
  · decide
  · decide

/-- C8 (corrected): every exception of the external step function is caught
at the loop boundary and does not propagate — the run returns normally with
the error text "执行出错: …", which the delivery path reports exactly once as
a normal `response` event (not an `error` event); and no loop state ever
carries an Errored agent state. -/
theorem c8_exception_caught :
    (∀ (w : Nat → StepSpec) (m : Nat) (preCancelled : Bool)
        (tools : List (String × Nat)) (tr : List LoopState) (e : String),
      runLoop w m m (initState preCancelled tools) = (tr, Except.error e) →
      runAgent w m preCancelled tools =
        ⟨RunOutcome.errored ("执行出错: " ++ e), tr, none⟩ ∧
      deliverTaskResult false
          (Except.ok (runReturn (runAgent w m preCancelled tools).outcome)) =
        (EventType.response, "执行出错: " ++ e)) ∧
    (∀ (w : Nat → StepSpec) (m : Nat) (preCancelled : Bool)
        (tools : List (String × Nat)),
      ∀ t ∈ (runAgent w m preCancelled tools).trace,
        t.state = AgentState.running ∨ t.state = AgentState.finished) := by
  constructor
  · intro w m preCancelled tools tr e h
    have hagent : runAgent w m preCancelled tools =
        ⟨RunOutcome.errored ("执行出错: " ++ e), tr, none⟩ := by
      unfold runAgent
      rw [h]
    refine ⟨hagent, ?_⟩
    rw [hagent]
    rfl
  · intro w m preCancelled tools t ht
    rw [runAgent_trace] at ht
    exact runLoop_trace_state m (initState preCancelled tools) (Or.inl rfl) t ht

/-- Witness for C8: an external step that raises "boom" at step 1 yields the
caught `执行出错` outcome, delivered as a response event. -/
theorem c8_exception_caught_witness :
    runAgent wFailBoom 5 false [("t", 0)] =
      ⟨RunOutcome.errored ("执行出错: " ++ "boom"), [], none⟩ ∧
    deliverTaskResult false
        (Except.ok (runReturn (runAgent wFailBoom 5 false [("t", 0)]).outcome)) =
      (EventType.response, "执行出错: " ++ "boom") :=
  c8_exception_caught.1 wFailBoom 5 false [("t", 0)] [] "boom" (by decide)

/-- Counterexample for C8 as stated: when the external step raises "crash",
the failure reaches the client as a `response` event, not an `error` event,
and the loop records no final state (and never an Errored one). -/
theorem c8_counterexample :
    deliverTaskResult false
        (Except.ok (runReturn (runAgent wFailCrash 5 false [("t", 0)]).outcome)) =
      (EventType.response, "执行出错: crash") ∧
    (runAgent wFailCrash 5 false [("t", 0)]).finalState = none ∧
    EventType.response ≠ EventType.error := by
  refine ⟨by decide, by decide, by decide⟩

/-- C9: `_notify_thinking` invokes every registered callback with the event,
in registration order, even when some callbacks raise: the invocation-result
list is exactly the list of callbacks applied to the event, each failure only
adds a log line, and the call always returns.  In particular, with a callback
that raises on every invocation placed before and after a succeeding one, all
three are invoked and the publish returns with both failures logged. -/
theorem c9_observer_isolation :
    (∀ (callbacks : List (String → Except String Unit)) (step : String),
      (notifyThinking callbacks step).1 = callbacks.map (fun cb => cb step)) ∧
    (notifyThinking
        [fun _ : String => Except.error "always", fun _ : String => Except.ok (),
         fun _ : String => Except.error "always"] "evt" =
      ([Except.error "always", Except.ok (), Except.error "always"],
       ["Error in thinking callback: always", "Error in thinking callback: always"])) := by
  constructor
  · intro callbacks step
    induction callbacks with
    | nil => rfl
    | cons cb rest ih =>
      unfold notifyThinking
      cases h : cb step with
      | ok u => simp [h, ih]
      | error e => simp [h, ih]
  · rfl

/-- C10: saving a conversation and reloading it by the identifier generated
at save time returns the identical ordered sequence of messages, provided the
generated identifier is fresh (no already-stored record carries it — the
uuid4 freshness assumption). -/
theorem c10_history_round_trip :
    ∀ (store : List HistoryRecord) (historyId timestamp clientId : String)
      (messages : List ChatMessage),
      (∀ r ∈ store, r.id ≠ historyId) →
      getConversation (saveConversation store historyId timestamp clientId messages).1
          historyId =
        some ⟨historyId, timestamp, clientId, messages⟩ ∧
      Option.map HistoryRecord.messages
          (getConversation (saveConversation store historyId timestamp clientId messages).1
            historyId) =
        some messages := by
  intro store historyId timestamp clientId messages hfresh
  have h : getConversation (saveConversation store historyId timestamp clientId messages).1
      historyId = some ⟨historyId, timestamp, clientId, messages⟩ :=
    find_append_fresh store ⟨historyId, timestamp, clientId, messages⟩ hfresh
  refine ⟨h, ?_⟩
  rw [h]
  rfl

/-- Witness for C10: a two-pair conversation saved into an empty store is
reloaded intact by its generated id. -/
theorem c10_history_round_trip_witness :
    getConversation
        (saveConversation [] "id-1" "2026-10-12" "client-1"
          [⟨"user", "hi", [], "t1"⟩, ⟨"assistant", "hello", ["thought"], "t2"⟩,
           ⟨"user", "again", [], "t3"⟩, ⟨"assistant", "done", [], "t4"⟩]).1 "id-1" =
      some ⟨"id-1", "2026-10-12", "client-1",
        [⟨"user", "hi", [], "t1"⟩, ⟨"assistant", "hello", ["thought"], "t2"⟩,
         ⟨"user", "again", [], "t3"⟩, ⟨"assistant", "done", [], "t4"⟩]⟩ :=
  (c10_history_round_trip [] "id-1" "2026-10-12" "client-1"
    [⟨"user", "hi", [], "t1"⟩, ⟨"assistant", "hello", ["thought"], "t2"⟩,
     ⟨"user", "again", [], "t3"⟩, ⟨"assistant", "done", [], "t4"⟩]
    (by simp)).1
